import Mathlib

/-!
Verification of the crawl-and-export pipeline of `drupal-to-static-html`.

The JavaScript sources are shallowly embedded: pure string manipulation is
translated to executable Lean functions over `List Char` / `String`, the
stateful crawler and file manager become explicit state-passing functions,
and the external collaborators (the HTTP client, the HTML parser used for
link extraction, the URL parser of Node's `url` module, and the MD5 digest
used only to derive file names) are abstracted as function parameters or,
for the MD5-keyed content map, keyed directly by the byte content (an
injective stand-in for the digest).

All string primitives are re-implemented structurally on `List Char` so that
every definition reduces inside the kernel (`decide` / `rfl` on concrete
inputs).
-/

namespace StrLib

/-- Word character in the sense of the JavaScript regex class `\w`,
that is `[A-Za-z0-9_]`. -/
def isWordChar (c : Char) : Bool :=
  c.isAlphanum || c == '_'

/-- Substring occurrence test on character lists: does `pat` occur
contiguously inside `s`? -/
def occursIn (pat : List Char) : List Char → Bool
  | [] => pat.isEmpty
  | c :: rest => pat.isPrefixOf (c :: rest) || occursIn pat rest

/-- String-level substring occurrence (case-sensitive). -/
def strOccurs (pat s : String) : Bool :=
  occursIn pat.toList s.toList

/-- Lower-casing implemented via `List.map` so it reduces in the kernel. -/
def strToLower (s : String) : String :=
  ⟨s.toList.map Char.toLower⟩

/-- Case-insensitive substring occurrence. -/
def strOccursCI (pat s : String) : Bool :=
  strOccurs (strToLower pat) (strToLower s)

/-- Occurrence of `pat` as a whole word: the JavaScript regex
`\bpat\b`.  `prev` is the character immediately before the current
position (`none` at the start of the string). -/
def wordOccursAux (pat : List Char) (prev : Option Char) : List Char → Bool
  | [] =>
      (match prev with
       | none => true
       | some c => !isWordChar c) && pat.isEmpty
  | c :: rest =>
      (boundaryOk prev && matchesHere pat (c :: rest)) || wordOccursAux pat (some c) rest
where
  boundaryOk : Option Char → Bool
    | none => true
    | some c => !isWordChar c
  matchesHere (pat s : List Char) : Bool :=
    pat.isPrefixOf s &&
      (match s.drop pat.length with
       | [] => true
       | c :: _ => !isWordChar c)

/-- `\bpat\b` occurrence in `s` (both as strings). -/
def wordOccurs (pat s : String) : Bool :=
  wordOccursAux pat.toList none s.toList

/-- Prefix test implemented structurally (model of `String.startsWith`
and the anchored JavaScript regexes `^...`). -/
def strStarts (s pat : String) : Bool :=
  pat.toList.isPrefixOf s.toList

/-- Suffix test implemented structurally (model of `String.endsWith`). -/
def strEnds (s pat : String) : Bool :=
  pat.toList.isSuffixOf s.toList

/-- Drop the first `n` characters. -/
def strDrop (s : String) (n : Nat) : String :=
  ⟨s.toList.drop n⟩

/-- Take the first `n` characters. -/
def strTake (s : String) (n : Nat) : String :=
  ⟨s.toList.take n⟩

/-- Drop the last character (used for stripping one trailing slash). -/
def strDropLast (s : String) : String :=
  ⟨s.toList.dropLast⟩

/-- Split a character list on a separator character; always returns at
least one (possibly empty) group, like JavaScript `split` and Node's
path handling. -/
def splitOnChar (sep : Char) : List Char → List (List Char)
  | [] => [[]]
  | c :: rest =>
      let r := splitOnChar sep rest
      if c == sep then [] :: r
      else
        match r with
        | [] => [[c]]
        | g :: gs => (c :: g) :: gs

/-- String-level split on a single-character separator. -/
def strSplit (s : String) (sep : Char) : List String :=
  (splitOnChar sep s.toList).map (fun g => ⟨g⟩)

/-- Trim leading and trailing whitespace (model of `String.trim` as used
by the content-type normalisation). -/
def strTrim (s : String) : String :=
  ⟨((s.toList.dropWhile Char.isWhitespace).reverse.dropWhile Char.isWhitespace).reverse⟩

/-- Join character-list groups with a separator character. -/
def joinSep (sep : Char) : List (List Char) → List Char
  | [] => []
  | [g] => g
  | g :: gs => g ++ sep :: joinSep sep gs

/-- Replace every non-overlapping occurrence of `pat` by `repl`,
scanning left to right and continuing after each replacement: the
semantics of JavaScript `String.prototype.replace` with a `/g` literal
pattern.  `fuel` bounds the recursion; it is instantiated with the
length of the subject, which suffices because every step consumes at
least one character. -/
def replaceAllAux (pat repl : List Char) : Nat → List Char → List Char
  | 0, s => s
  | _ + 1, [] => []
  | fuel + 1, c :: rest =>
      if !pat.isEmpty && pat.isPrefixOf (c :: rest) then
        repl ++ replaceAllAux pat repl fuel (List.drop (pat.length - 1) rest)
      else
        c :: replaceAllAux pat repl fuel rest

/-- String-level global replacement. -/
def strReplaceAll (s pat repl : String) : String :=
  ⟨replaceAllAux pat.toList repl.toList s.toList.length s.toList⟩

end StrLib

open StrLib

/-- Result of parsing a URL with Node's `new URL(...)`: the components the
repository reads.  URL parsing itself is an external library; every model
function that needs it takes a parser `String → Option UrlParts` as a
parameter (`none` models the constructor throwing). -/
structure UrlParts where
  hostname : String
  pathname : String
  search : String
  hash : String
deriving DecidableEq

namespace HtmlUtils

/-- Model of `HtmlUtils.isAbsoluteUrl`: the regex `^https?:\/\//`. -/
def isAbsoluteUrl (url : String) : Bool :=
  strStarts url "http://" || strStarts url "https://"

/-- Model of `HtmlUtils.isSpecialUrl`: the regex
`^(data:|javascript:|mailto:|tel:|sms:|#)`. -/
def isSpecialUrl (url : String) : Bool :=
  ["data:", "javascript:", "mailto:", "tel:", "sms:", "#"].any (fun p => strStarts url p)

/-- Leading `www.` stripping: `replace(/^www\./, '')` (at most one
occurrence, anchored at the start). -/
def stripWWW (h : String) : String :=
  if strStarts h "www." then strDrop h 4 else h

/-- Model of `HtmlUtils.extractDomain`: `new URL(url).hostname`, `null` on
a parse failure. -/
def extractDomain (parse : String → Option UrlParts) (url : String) : Option String :=
  (parse url).map UrlParts.hostname

/-- Model of `HtmlUtils.isSameDomain(url, siteDomain)` (the post-processor
variant, which receives the domain as an argument). -/
def isSameDomain (parse : String → Option UrlParts) (url siteDomain : String) : Bool :=
  match extractDomain parse url with
  | none => false
  | some d => stripWWW d == stripWWW siteDomain

/-- Model of `HtmlUtils.toRelativeUrl`. -/
def toRelativeUrl (parse : String → Option UrlParts) (absoluteUrl siteDomain : String) : String :=
  if !isAbsoluteUrl absoluteUrl then absoluteUrl
  else if !isSameDomain parse absoluteUrl siteDomain then absoluteUrl
  else
    match parse absoluteUrl with
    | some u => u.pathname ++ u.search ++ u.hash
    | none => absoluteUrl

/-- Model of `HtmlUtils.rewriteDrupalPaths`:
`url.replace(/\/sites\/default\/files\//g, '/files/')`. -/
def rewriteDrupalPaths (url : String) : String :=
  strReplaceAll url "/sites/default/files/" "/files/"

/-- Model of `HtmlUtils.createJatosReplacement`: the fixed informational
block with the configured contact link interpolated into the anchor. -/
def createJatosReplacement (linkedinProfile : String) : String :=
  "<div class=\"jatos-replacement\" style=\"background: #f0f0f0; padding: 20px; border-radius: 4px; margin: 20px 0; text-align: center;\">\n  <p style=\"margin: 0; font-size: 16px; color: #333;\">\n    <strong>Experiments have concluded.</strong><br>\n    For more information, please contact me on\n    <a href=\"" ++ linkedinProfile ++ "\" target=\"_blank\" rel=\"noopener noreferrer\" style=\"color: #0077b5; text-decoration: none;\">LinkedIn</a>.\n  </p>\n</div>"

end HtmlUtils

/-- Model of `CrawlerConfig`.  The constructor assigns `siteHost`, `siteIp`,
`linkedInProfile` and the numeric settings; it never assigns a field named
`siteHostname`, so reading `config.siteHostname` in the running program
yields `undefined` — modelled by the `Option` field that the constructor
leaves at `none`. -/
structure CrawlerConfig where
  siteHost : String
  siteIp : String
  linkedInProfile : String
  crawlDelay : Nat
  maxDepth : Nat
  maxPages : Nat
  maxRetries : Nat
  siteHostname : Option String := none
deriving DecidableEq

/-- Model of the `CrawlerConfig` constructor after environment parsing: the
string and integer settings are taken as already-parsed arguments, and no
`siteHostname` field is ever written. -/
def CrawlerConfig.make (siteHost siteIp linkedInProfile : String)
    (crawlDelay maxDepth maxPages maxRetries : Nat) : CrawlerConfig :=
  { siteHost := siteHost
    siteIp := siteIp
    linkedInProfile := linkedInProfile
    crawlDelay := crawlDelay
    maxDepth := maxDepth
    maxPages := maxPages
    maxRetries := maxRetries
    siteHostname := none }

namespace Crawler

/-- Model of `Crawler.isSameDomain` (identical in both crawler versions):

```js
const parsedUrl = new URL(url);
const urlHost = parsedUrl.hostname.replace(/^www\./, '');
const siteHost = this.config.siteHostname.replace(/^www\./, '');
return urlHost === siteHost;
```

wrapped in `try/catch` returning `false`.  When `config.siteHostname` is
`undefined` (`none`), the `.replace` call throws a `TypeError` which the
`catch` swallows, so the function returns `false`. -/
def isSameDomain (cfg : CrawlerConfig) (parse : String → Option UrlParts)
    (url : String) : Bool :=
  match parse url with
  | none => false
  | some parts =>
      match cfg.siteHostname with
      | none => false
      | some sh => HtmlUtils.stripWWW parts.hostname == HtmlUtils.stripWWW sh

/-- Status component of a `fetchPage` result: the numeric HTTP status (with
`0` standing for a transport failure) or the string sentinel
`'binary-asset'`. -/
inductive FStatus where
  | code (n : Nat)
  | binaryAsset
deriving DecidableEq

/-- Model of the object literal returned by `Crawler.fetchPage`: the fields
are untagged, and the crawl loop distinguishes outcomes solely by the
`status` field. -/
structure FetchRec where
  html : String
  status : FStatus
  contentType : Option String
  error : Option String
deriving DecidableEq

/-- One attempted HTTP GET, as seen by `fetchPage`: either the client
throws (timeout, connection reset, ...) or it yields a response.  With
`validateStatus: () => true` a non-2xx status is a response, not a throw. -/
inductive AttemptResult where
  | throwErr (msg : String)
  | respond (status : Nat) (body : String) (contentType : Option String)
      (contentDisp : Option String)

/-- Media type extracted from a `Content-Type` header value:
`(headers['content-type'] || '').split(';')[0].trim().toLowerCase()`. -/
def mediaTypeOf (ct : Option String) : String :=
  strToLower (strTrim (((strSplit (ct.getD "") ';').headD "")))

/-- Model of the response-classification block of `Crawler.fetchPage`
(lines 254–271 of the binary-aware crawler): given a response's status,
body and headers, produce the result record. -/
def classifyResponse (status : Nat) (body : String)
    (ct contentDisp : Option String) : FetchRec :=
  if status = 200 ∧ body ≠ "" then
    let contentType := mediaTypeOf ct
    let disp := strToLower (contentDisp.getD "")
    let isHtml : Bool := contentType == "" || contentType == "text/html" ||
      contentType == "application/xhtml+xml"
    let isAttachment : Bool := wordOccurs "attachment" disp
    if !isHtml || isAttachment then
      { html := "", status := .binaryAsset, contentType := some contentType, error := none }
    else
      { html := body, status := .code 200, contentType := none, error := none }
  else
    { html := "", status := .code status, contentType := none,
      error := some ("HTTP " ++ toString status) }

/-- Recursive core of `Crawler.fetchPage`.  `budget` is
`maxRetries - attempt` (the code retries while `attempt < maxRetries`).
Returns the result record, the number of HTTP GETs issued, and the list of
backoff delays slept (`1000 * (attempt + 1)` before each retry). -/
def fetchFrom (att : String → Nat → AttemptResult) (url : String) :
    Nat → Nat → FetchRec × Nat × List Nat
  | 0, attempt =>
      match att url attempt with
      | .respond st body ct cd => (classifyResponse st body ct cd, 1, [])
      | .throwErr msg =>
          ({ html := "", status := .code 0, contentType := none, error := some msg }, 1, [])
  | budget + 1, attempt =>
      match att url attempt with
      | .respond st body ct cd => (classifyResponse st body ct cd, 1, [])
      | .throwErr _ =>
          let r := fetchFrom att url budget (attempt + 1)
          (r.1, r.2.1 + 1, 1000 * (attempt + 1) :: r.2.2)

/-- Model of `Crawler.fetchPage(url)` (initial call has `attempt = 0`).
It is a total function: every branch of the source returns a record, so the
crawl loop can never be aborted by an exception escaping `fetchPage`. -/
def fetchPage (cfg : CrawlerConfig) (att : String → Nat → AttemptResult)
    (url : String) : FetchRec × Nat × List Nat :=
  fetchFrom att url cfg.maxRetries 0

/-- Mutable crawl state of the `Crawler` instance, plus a ghost
`fetchLog` recording one entry per HTTP GET issued (for the fetch-count
invariant).  `visited` and `fetchLog` grow at the front; only membership
and counts are ever observed. -/
structure CrawlState where
  queued : List String
  visited : List String
  pages : List (String × String × Nat)
  failed : List (String × FStatus × String)
  assets : List String
  depthMap : List (String × Nat)
  processed : Nat
  fetchLog : List String
deriving DecidableEq

/-- The empty state built by the `Crawler` constructor. -/
def initialState : CrawlState :=
  { queued := [], visited := [], pages := [], failed := [], assets := [],
    depthMap := [], processed := 0, fetchLog := [] }

/-- Model of `Crawler.queueUrl`. -/
def queueUrl (s : CrawlState) (url : String) (depth : Nat) : CrawlState :=
  if url ∈ s.visited ∨ url ∈ s.queued then s
  else { s with queued := s.queued ++ [url], depthMap := (url, depth) :: s.depthMap }

/-- Model of `Crawler.getDepthForUrl`: `urlDepthMap.get(url) || 0`. -/
def getDepthForUrl (s : CrawlState) (url : String) : Nat :=
  (s.depthMap.lookup url).getD 0

/-- Model of `this.assetUrls.add(url)` (a JS `Set`). -/
def addAsset (s : CrawlState) (url : String) : CrawlState :=
  if url ∈ s.assets then s else { s with assets := s.assets ++ [url] }

/-- One iteration of the `while` loop of `Crawler.crawl` (binary-aware
version, lines 165–224).  `extract` abstracts
`extractUrls(html, pageUrl)` — the cheerio-based link/asset extraction —
returning `(links, assetRefs)`. -/
def crawlStep (cfg : CrawlerConfig) (att : String → Nat → AttemptResult)
    (extract : String → String → List String × List String)
    (s : CrawlState) : CrawlState :=
  match s.queued with
  | [] => s
  | url :: rest =>
      let s1 := { s with queued := rest }
      let depth := getDepthForUrl s1 url
      if cfg.maxDepth > 0 ∧ depth > cfg.maxDepth then s1
      else if url ∈ s1.visited then s1
      else
        let res := fetchPage cfg att url
        let s2 := { s1 with
          visited := url :: s1.visited
          processed := s1.processed + 1
          fetchLog := List.replicate res.2.1 url ++ s1.fetchLog }
        if res.1.status = FStatus.code 200 then
          let s3 := { s2 with pages := s2.pages ++ [(url, res.1.html, depth)] }
          let ex := extract res.1.html url
          let s4 := ex.1.foldl
            (fun t l => if l ∉ t.visited ∧ l ∉ t.queued then queueUrl t l (depth + 1) else t) s3
          ex.2.foldl (fun t a => addAsset t a) s4
        else if res.1.status = FStatus.binaryAsset then
          addAsset s2 url
        else
          { s2 with failed := s2.failed ++ [(url, res.1.status, res.1.error.getD "")] }

/-- The `while (queuedUrls.size > 0 && processedCount < maxPages)` loop,
with explicit fuel.  With fuel `0` the current state is returned as is;
every claim about termination is stated with concrete sufficient fuel. -/
def crawlLoop (cfg : CrawlerConfig) (att : String → Nat → AttemptResult)
    (extract : String → String → List String × List String) :
    Nat → CrawlState → CrawlState
  | 0, s => s
  | fuel + 1, s =>
      if s.queued ≠ [] ∧ s.processed < cfg.maxPages then
        crawlLoop cfg att extract fuel (crawlStep cfg att extract s)
      else s

/-- Model of `Crawler.crawl()`: seed the site root at depth 0 and run the
loop. -/
def crawl (cfg : CrawlerConfig) (att : String → Nat → AttemptResult)
    (extract : String → String → List String × List String)
    (fuel : Nat) : CrawlState :=
  crawlLoop cfg att extract fuel
    (queueUrl initialState ("https://" ++ cfg.siteHost ++ "/") 0)

end Crawler

namespace FileManager

/-- Strip one leading slash: `relPath.replace(/^\//, '')` (the regex is
anchored and not global, so only the first slash is removed). -/
def stripLeadingSlash (p : String) : String :=
  if strStarts p "/" then strDrop p 1 else p

/-- Segment normalisation shared by `path.normalize` and `path.resolve`
(POSIX): `.` and empty segments are dropped beforehand; `..` pops the
previous segment, accumulates at the front of a relative path, and is
discarded at the root of an absolute path. -/
def normSegs (isAbs : Bool) (segs : List (List Char)) : List (List Char) :=
  segs.foldl
    (fun acc s =>
      if s == ['.', '.'] then
        match acc.getLast? with
        | none => if isAbs then [] else [s]
        | some l => if l == ['.', '.'] then acc ++ [s] else acc.dropLast
      else acc ++ [s]) []

/-- Model of Node's `path.normalize` (POSIX rules; trailing-slash
preservation is irrelevant here because the call sites pass file paths). -/
def jsNormalize (p : String) : String :=
  let isAbs := strStarts p "/"
  let segs := (splitOnChar '/' p.toList).filter (fun s => !s.isEmpty && s != ['.'])
  let core := joinSep '/' (normSegs isAbs segs)
  let r := if isAbs then '/' :: core else core
  if r.isEmpty then "." else ⟨r⟩

/-- Model of `path.resolve(base, p)` where `base` is an absolute,
already-normalised directory (the snapshot directory is built by
`path.join(outputDir, timestamp)` from an absolute output root). -/
def resolveFrom (base p : String) : String :=
  if strStarts p "/" then jsNormalize p
  else jsNormalize (base ++ "/" ++ p)

/-- One record of the `assetMap`: `saveAssetAtPath` stores
`{relPath, contentHash}`, `saveAsset` stores `{assetUrl, filePath,
contentHash}` (the content hash is the key of the map and is left
implicit here). -/
inductive AssetRecord where
  | atPath (relPath : String)
  | classified (assetUrl : String) (filePath : String)
deriving DecidableEq

/-- State of a `FileManager` with an initialised snapshot.  The content
hash used for deduplication (`md5(fileBuffer)`) is modelled by keying the
map directly on the byte content, an injective stand-in for the digest.
`writes` is the ghost list of files written to disk. -/
structure FMState where
  snapshotDir : String
  assetMap : List (List Nat × AssetRecord)
  writes : List (String × List Nat)
  assetCount : Nat
deriving DecidableEq

/-- Model of `FileManager.saveAssetAtPath(relPath, fileBuffer)`: strip one
leading slash and normalise, reject the path if its resolution against the
snapshot root does not stay strictly inside it (returning `null` and
leaving the state untouched), then deduplicate by content hash; a fresh
content writes one file and records the hash→record mapping. -/
def saveAssetAtPath (s : FMState) (relPath : String) (buf : List Nat) :
    Option AssetRecord × FMState :=
  let normalized := jsNormalize (stripLeadingSlash relPath)
  let fullPath := resolveFrom s.snapshotDir normalized
  if !strStarts fullPath (s.snapshotDir ++ "/") then
    (none, s)
  else
    match s.assetMap.lookup buf with
    | some r => (some r, s)
    | none =>
        let r := AssetRecord.atPath normalized
        (some r, { s with
          assetMap := (buf, r) :: s.assetMap
          writes := s.writes ++ [(fullPath, buf)]
          assetCount := s.assetCount + 1 })

/-- Model of `FileManager.getAssetDirectory(mimeType, url)`. -/
def getAssetDirectory (mimeType url : String) : String :=
  if strOccurs "image" mimeType then "images"
  else if strOccurs "stylesheet" mimeType || strEnds url ".css" then "css"
  else if strOccurs "javascript" mimeType || strEnds url ".js" then "js"
  else "files"

/-- The `mimeMap` object literal of `getExtensionForMimeType`, in source
order (JS object literals preserve insertion order). -/
def mimeExtList : List (String × String) :=
  [("image/jpeg", ".jpg"), ("image/png", ".png"), ("image/gif", ".gif"),
   ("image/svg+xml", ".svg"), ("image/webp", ".webp"), ("text/css", ".css"),
   ("text/javascript", ".js"), ("application/javascript", ".js"),
   ("application/json", ".json"), ("text/html", ".html"), ("text/plain", ".txt")]

/-- Model of `FileManager.getExtensionForMimeType`. -/
def getExtensionForMimeType (mimeType : String) : String :=
  match mimeExtList.lookup mimeType with
  | some ext => ext
  | none =>
      match mimeExtList.find? (fun p => strOccurs ((strSplit p.1 '/').headD "") mimeType) with
      | some p => p.2
      | none => ""

/-- Model of Node's `path.basename`: the last non-empty path segment
(trailing slashes are ignored), or the empty string. -/
def basenameOf (p : String) : String :=
  ⟨((((splitOnChar '/' p.toList)).filter (fun s => !s.isEmpty)).getLast?).getD []⟩

/-- The filename sanitisation `filename.replace(/[^a-zA-Z0-9._\-]/g, '_')`. -/
def sanitizeFilename (f : String) : String :=
  ⟨f.toList.map (fun c =>
    if c.isAlphanum || c == '.' || c == '_' || c == '-' then c else '_')⟩

/-- Model of `FileManager.getAssetFilename(url, mimeType)`.  `parse` is the
URL parser and `md5hex` the hex digest used only to synthesise names. -/
def getAssetFilename (parse : String → Option UrlParts) (md5hex : String → String)
    (url mimeType : String) : String :=
  match parse url with
  | some parts =>
      let filename := basenameOf parts.pathname
      let filename :=
        if filename = "" then
          "asset-" ++ strTake (md5hex url) 8 ++ getExtensionForMimeType mimeType
        else filename
      sanitizeFilename filename
  | none => "asset-" ++ strTake (md5hex url) 12 ++ getExtensionForMimeType mimeType

/-- Model of `FileManager.saveAsset(assetUrl, fileBuffer, mimeType)`: the
classification-based save entry point.  Deduplication by content hash
happens before any path computation. -/
def saveAsset (parse : String → Option UrlParts) (md5hex : String → String)
    (s : FMState) (assetUrl : String) (buf : List Nat) (mimeType : String) :
    AssetRecord × FMState :=
  match s.assetMap.lookup buf with
  | some r => (r, s)
  | none =>
      let destDir := getAssetDirectory mimeType assetUrl
      let filename := getAssetFilename parse md5hex assetUrl mimeType
      let filePath := destDir ++ "/" ++ filename
      let fullPath := s.snapshotDir ++ "/" ++ filePath
      let r := AssetRecord.classified assetUrl filePath
      (r, { s with
        assetMap := (buf, r) :: s.assetMap
        writes := s.writes ++ [(fullPath, buf)]
        assetCount := s.assetCount + 1 })

/-- The path component Node's `path.extname` inspects: trailing slashes
are skipped first, then everything after the last remaining `/` (empty
only when the trimmed path is empty). -/
def lastComponent (p : String) : List Char :=
  let trimmed := (p.toList.reverse.dropWhile (fun c => c == '/')).reverse
  ((splitOnChar '/' trimmed).getLast?).getD []

/-- Model of Node's `path.extname` (POSIX): the suffix of the last
component (trailing slashes ignored) from its rightmost `.`.  It is empty
when there is no dot, when the rightmost dot is the component's first
character (`preDotState === 0`: dotfiles such as `.bashrc`, and `.`), or
when — per the source comment "the (right-most) trimmed path component is
exactly `..`" — the component is `..`; every other all-dot component such
as `...` yields `"."`. -/
def extnameOf (p : String) : String :=
  let base := lastComponent p
  match base.reverse.findIdx? (fun c => c == '.') with
  | none => ""
  | some i =>
      let pos := base.length - 1 - i
      if pos = 0 then ""
      else if base = ['.', '.'] then ""
      else ⟨base.drop pos⟩

/-- Model of `FileManager.getPageFilePath(url)`: map a page URL to the
relative file path it is saved under, falling back to a hash-named file
under `pages/` when `new URL(url)` throws. -/
def getPageFilePath (parse : String → Option UrlParts) (md5hex : String → String)
    (url : String) : String :=
  match parse url with
  | some parts =>
      let p0 := parts.pathname
      let p1 := if strEnds p0 "/" then strDropLast p0 else p0
      let p2 := if p1 = "" then "/" else p1
      if p2 = "/" then "index.html"
      else
        let p3 := strDrop p2 1
        if extnameOf p3 ≠ "" then p3 else p3 ++ "/index.html"
  | none => "pages/" ++ md5hex url ++ ".html"

end FileManager

namespace PostProcessor

/-- Element-level view of a page's DOM as far as `replaceJatosForms` is
concerned: the three element kinds it inspects, any other element, and the
replacement block it inserts. -/
inductive HNode where
  | iframe (src cls : String)
  | form (action cls : String)
  | anchor (href text : String)
  | other (tag : String)
  | replacement (html : String)
deriving DecidableEq

/-- The cheerio selector `iframe[src*="jatos"], iframe[class*="jatos"]`:
CSS attribute substring matching is case-sensitive. -/
def iframeFlagged (src cls : String) : Bool :=
  strOccurs "jatos" src || strOccurs "jatos" cls

/-- The test `/jatos|experiment|signup/i.test(action + formClass)` applied
to each form: case-insensitive alternation over three tokens. -/
def formFlagged (action cls : String) : Bool :=
  let s := strToLower (action ++ cls)
  strOccurs "jatos" s || strOccurs "experiment" s || strOccurs "signup" s

/-- The test `/jatos|experiment/.test(href + text.toLowerCase())` applied
to each anchor: the regex has no `i` flag, so the `href` part is matched
case-sensitively while the text part was lower-cased beforehand. -/
def anchorFlagged (href text : String) : Bool :=
  let s := href ++ strToLower text
  strOccurs "jatos" s || strOccurs "experiment" s

/-- Model of `PostProcessor.replaceJatosForms`: three successive passes
over the page replace flagged iframes, then flagged forms, then flagged
anchors, each by the fixed informational block. -/
def replaceJatosForms (linkedinProfile : String) (page : List HNode) : List HNode :=
  let block := HNode.replacement (HtmlUtils.createJatosReplacement linkedinProfile)
  let p1 := page.map (fun n =>
    match n with
    | .iframe src cls => if iframeFlagged src cls then block else n
    | _ => n)
  let p2 := p1.map (fun n =>
    match n with
    | .form action cls => if formFlagged action cls then block else n
    | _ => n)
  p2.map (fun n =>
    match n with
    | .anchor href text => if anchorFlagged href text then block else n
    | _ => n)

/-- Combined decision: which elements end up replaced. -/
def nodeFlagged : HNode → Bool
  | .iframe src cls => iframeFlagged src cls
  | .form action cls => formFlagged action cls
  | .anchor href text => anchorFlagged href text
  | _ => false

/-- Model of the `$('[src]')` handler of `PostProcessor.rewriteUrls`: skip
special schemes, rewrite the Drupal file path, then relativise. -/
def processSrcAttr (parse : String → Option UrlParts) (siteDomain src : String) : String :=
  if HtmlUtils.isSpecialUrl src then src
  else HtmlUtils.toRelativeUrl parse (HtmlUtils.rewriteDrupalPaths src) siteDomain

end PostProcessor

namespace Orchestrator

/-- Model of the asset save-path computation of `runCrawl`
(src/modes/crawl.js lines 87–89): the downloaded asset is saved at
`HtmlUtils.rewriteDrupalPaths(new URL(assetUrl).pathname)` — the same
rewrite the post-processor applied inside the HTML. -/
def assetSavePath (pathname : String) : String :=
  HtmlUtils.rewriteDrupalPaths pathname

end Orchestrator

/-! Specification-side definitions used to compare claims against the code,
and concrete fixtures used by counterexamples and witnesses. -/

/-- The same-domain test as the specification words it (for comparison
with `Crawler.isSameDomain`): the URL's hostname with a leading `www.`
stripped must equal the configured site hostname with its port and any
leading `www.` stripped. -/
def specSameDomainTest (siteHost : String) (parse : String → Option UrlParts)
    (url : String) : Bool :=
  match parse url with
  | none => false
  | some parts =>
      HtmlUtils.stripWWW parts.hostname ==
        HtmlUtils.stripWWW ((strSplit siteHost ':').headD siteHost)

/-- The marker matching as the claim words it: case-insensitive substring
search of the token against both operands of each inspected element kind. -/
def claimTokenFlagged (token : String) : PostProcessor.HNode → Bool
  | .iframe src cls => strOccursCI token src || strOccursCI token cls
  | .form action cls => strOccursCI token action || strOccursCI token cls
  | .anchor href text => strOccursCI token href || strOccursCI token text
  | _ => false

/-- Fetch-count invariant of the crawl loop: the visited list never holds
duplicates, and a URL's GETs (at most `m` of them) are all issued while it
is being marked visited — an unvisited URL has never been fetched. -/
def CrawlInv (m : Nat) (s : Crawler.CrawlState) : Prop :=
  s.visited.Nodup ∧
    ∀ u, s.fetchLog.count u ≤ if u ∈ s.visited then m else 0

/-- Demo configuration: `SITE_HOST=h` with the default numeric settings. -/
def cfgDemo : CrawlerConfig := CrawlerConfig.make "h" "127.0.0.1" "https://linkedin.com" 0 0 10000 3

/-- Demo configuration for the same-domain claim: `SITE_HOST=example.com`. -/
def cfgExample : CrawlerConfig :=
  CrawlerConfig.make "example.com" "1.2.3.4" "https://linkedin.com" 500 0 10000 3

/-- Demo URL parser recognising exactly the site root of `cfgExample`. -/
def demoParse : String → Option UrlParts := fun u =>
  if u = "https://example.com/" then some ⟨"example.com", "/", "", ""⟩ else none

/-- Oracle whose every attempt yields HTTP 500. -/
def attStatus500 : String → Nat → Crawler.AttemptResult := fun _ _ =>
  .respond 500 "err" none none

/-- Oracle whose every attempt throws (persistent transport failure). -/
def attThrowAlways : String → Nat → Crawler.AttemptResult := fun _ _ =>
  .throwErr "ECONNRESET"

/-- Oracle whose every attempt yields HTTP 200 with an empty body. -/
def attEmptyBody : String → Nat → Crawler.AttemptResult := fun _ _ =>
  .respond 200 "" none none

/-- Extraction stub returning no links and no assets. -/
def extractNone : String → String → List String × List String := fun _ _ => ([], [])

/-- Two-page cyclic site on host `h`: the root page links to `/b` and page
`/b` links back to the root. -/
def attCycle : String → Nat → Crawler.AttemptResult := fun u _ =>
  if u = "https://h/" then .respond 200 "A" none none
  else .respond 200 "B" none none

/-- Link extraction for the cyclic site: page `A` yields the link to `/b`,
page `B` yields the link back to the root. -/
def extractCycle : String → String → List String × List String := fun html _ =>
  if html = "A" then (["https://h/b"], []) else (["https://h/"], [])

/-- Fresh file-manager state over the snapshot directory `/out/snap`. -/
def fmDemo : FileManager.FMState :=
  { snapshotDir := "/out/snap", assetMap := [], writes := [], assetCount := 0 }

/-! Claim theorems. -/

/-- C1: the claim says the crawler's same-domain test returns true exactly
when the URL's hostname (leading `www.` stripped) equals the configured
site hostname (port and leading `www.` stripped), and in particular
returns true when the hostnames coincide.  The code instead always
returns `false`: `isSameDomain` reads `config.siteHostname`, a field the
`CrawlerConfig` constructor never assigns, so the swallowed `TypeError`
makes every call return `false` — shown here both in general and at the
concrete URL `https://example.com/` with `SITE_HOST=example.com`, where
the specification-side test returns `true`. -/
theorem c1_sameDomain_always_false :
    cfgExample.siteHostname = none ∧
    (∀ (parse : String → Option UrlParts) (url : String),
      Crawler.isSameDomain cfgExample parse url = false) ∧
    specSameDomainTest "example.com" demoParse "https://example.com/" = true ∧
    Crawler.isSameDomain cfgExample demoParse "https://example.com/" = false := by
  refine ⟨rfl, ?_, by decide, by decide⟩
  intro parse url
  unfold Crawler.isSameDomain
  cases parse url with
  | none => rfl
  | some parts => rfl

/-- C10: the claim says a 200 response with an empty body yields a Failure
outcome with status 200 and error `HTTP 200`, recorded in the failed list
and neither kept as a page nor as an asset.  `fetchPage` does return that
error record, but because its `status` field is the raw `200` the crawl
loop's `page.status === 200` test treats it as a successful page: the URL
is appended to `crawledPages` with empty html and the failed list stays
empty. -/
theorem c10_empty_body_kept_as_page :
    Crawler.fetchPage cfgDemo attEmptyBody "https://h/" =
      ({ html := "", status := .code 200, contentType := none, error := some "HTTP 200" }, 1, []) ∧
    (Crawler.crawl cfgDemo attEmptyBody extractNone 3).pages = [("https://h/", "", 0)] ∧
    (Crawler.crawl cfgDemo attEmptyBody extractNone 3).failed = [] ∧
    (Crawler.crawl cfgDemo attEmptyBody extractNone 3).assets = [] := by
  refine ⟨by decide, by decide, by decide, by decide⟩

/-- C6: if the relative path given to `saveAssetAtPath`, after
normalisation and resolution against the snapshot root, does not remain
strictly inside that root, the call returns `null` (no exception), writes
no file, records no asset and leaves the asset count unchanged. -/
theorem c6_traversal_rejected (s : FileManager.FMState) (relPath : String) (buf : List Nat)
    (h : strStarts
      (FileManager.resolveFrom s.snapshotDir
        (FileManager.jsNormalize (FileManager.stripLeadingSlash relPath)))
      (s.snapshotDir ++ "/") = false) :
    (FileManager.saveAssetAtPath s relPath buf).1 = none ∧
    (FileManager.saveAssetAtPath s relPath buf).2.writes = s.writes ∧
    (FileManager.saveAssetAtPath s relPath buf).2.assetMap = s.assetMap ∧
    (FileManager.saveAssetAtPath s relPath buf).2.assetCount = s.assetCount := by
  unfold FileManager.saveAssetAtPath
  simp only [h]
  exact ⟨rfl, rfl, rfl, rfl⟩

/-- C6 witness: the traversal path `../evil.png` resolves to
`/out/evil.png`, outside the snapshot root `/out/snap`, and is rejected
without any state change. -/
theorem c6_witness :
    (FileManager.saveAssetAtPath fmDemo "../evil.png" [1]).1 = none ∧
    (FileManager.saveAssetAtPath fmDemo "../evil.png" [1]).2.writes = fmDemo.writes ∧
    (FileManager.saveAssetAtPath fmDemo "../evil.png" [1]).2.assetMap = fmDemo.assetMap ∧
    (FileManager.saveAssetAtPath fmDemo "../evil.png" [1]).2.assetCount = fmDemo.assetCount :=
  c6_traversal_rejected fmDemo "../evil.png" [1] (by decide)


/-- C5 counterexample: two `saveAssetAtPath` calls with byte-identical
buffers where the second call's path fails the safety check.  The claim
says the second call returns the record created by the first; the code
checks the path before consulting the deduplication map, so the second
call returns `null` instead. -/
theorem c5_counterexample :
    (FileManager.saveAssetAtPath fmDemo "files/a.png" [1, 2]).1 =
      some (FileManager.AssetRecord.atPath "files/a.png") ∧
    (FileManager.saveAssetAtPath
      ((FileManager.saveAssetAtPath fmDemo "files/a.png" [1, 2]).2)
      "../evil.png" [1, 2]).1 = none := by
  exact ⟨by decide, by decide⟩

/-- C5 (amended): within one snapshot, any save call that is not rejected
by the path-safety check makes the byte content's record retrievable; a
first save of fresh content writes exactly one file; and once a record
exists for the content, a further `saveAsset` call, or a further
`saveAssetAtPath` call whose path passes the safety check, performs no
write and returns that same record with the state unchanged. -/
theorem c5_dedup_by_content (parse : String → Option UrlParts) (md5hex : String → String)
    (s : FileManager.FMState) (buf : List Nat) :
    (∀ p r s', FileManager.saveAssetAtPath s p buf = (some r, s') →
       s'.assetMap.lookup buf = some r ∧
       (s.assetMap.lookup buf = none → s'.writes.length = s.writes.length + 1) ∧
       (∀ r₀, s.assetMap.lookup buf = some r₀ → r = r₀ ∧ s' = s)) ∧
    (∀ url mime r s', FileManager.saveAsset parse md5hex s url buf mime = (r, s') →
       s'.assetMap.lookup buf = some r ∧
       (s.assetMap.lookup buf = none → s'.writes.length = s.writes.length + 1) ∧
       (∀ r₀, s.assetMap.lookup buf = some r₀ → r = r₀ ∧ s' = s)) ∧
    (∀ r, s.assetMap.lookup buf = some r →
       (∀ url mime, FileManager.saveAsset parse md5hex s url buf mime = (r, s)) ∧
       (∀ p, strStarts
           (FileManager.resolveFrom s.snapshotDir
             (FileManager.jsNormalize (FileManager.stripLeadingSlash p)))
           (s.snapshotDir ++ "/") = true →
         FileManager.saveAssetAtPath s p buf = (some r, s))) := by
  refine ⟨?_, ?_, ?_⟩
  · intro p r s' hsave
    unfold FileManager.saveAssetAtPath at hsave
    by_cases hsafe : strStarts
        (FileManager.resolveFrom s.snapshotDir
          (FileManager.jsNormalize (FileManager.stripLeadingSlash p)))
        (s.snapshotDir ++ "/") = true
    · simp only [hsafe, Bool.not_true, Bool.false_eq_true, if_false] at hsave
      cases hl : s.assetMap.lookup buf with
      | some r₀ =>
          rw [hl] at hsave
          have hr : some r₀ = some r := congrArg Prod.fst hsave
          have hs : s = s' := congrArg Prod.snd hsave
          injection hr with hrr
          subst hrr
          refine ⟨?_, ?_, ?_⟩
          · rw [← hs]; exact hl
          · intro hnone; exact Option.noConfusion hnone
          · intro r₁ hr₁
            injection hr₁ with hrr₁
            exact ⟨hrr₁, hs.symm⟩
      | none =>
          rw [hl] at hsave
          have hr : some (FileManager.AssetRecord.atPath
              (FileManager.jsNormalize (FileManager.stripLeadingSlash p))) = some r :=
            congrArg Prod.fst hsave
          have hs : ({ s with
              assetMap := (buf, FileManager.AssetRecord.atPath
                (FileManager.jsNormalize (FileManager.stripLeadingSlash p))) :: s.assetMap
              writes := s.writes ++ [(FileManager.resolveFrom s.snapshotDir
                (FileManager.jsNormalize (FileManager.stripLeadingSlash p)), buf)]
              assetCount := s.assetCount + 1 } : FileManager.FMState) = s' :=
            congrArg Prod.snd hsave
          injection hr with hrr
          refine ⟨?_, ?_, ?_⟩
          · rw [← hs]; simp [List.lookup, ← hrr]
          · intro _; rw [← hs]; simp
          · intro r₁ hr₁
            exact Option.noConfusion hr₁
    · rw [Bool.not_eq_true] at hsafe
      simp only [hsafe, Bool.not_false, if_true] at hsave
      exact Option.noConfusion (congrArg Prod.fst hsave)
  · intro url mime r s' hsave
    unfold FileManager.saveAsset at hsave
    cases hl : s.assetMap.lookup buf with
    | some r₀ =>
        rw [hl] at hsave
        have hr : r₀ = r := congrArg Prod.fst hsave
        have hs : s = s' := congrArg Prod.snd hsave
        subst hr
        refine ⟨?_, ?_, ?_⟩
        · rw [← hs]; exact hl
        · intro hnone; exact Option.noConfusion hnone
        · intro r₁ hr₁
          injection hr₁ with hrr₁
          exact ⟨hrr₁, hs.symm⟩
    | none =>
        rw [hl] at hsave
        have hr : FileManager.AssetRecord.classified url
            (FileManager.getAssetDirectory mime url ++ "/" ++
              FileManager.getAssetFilename parse md5hex url mime) = r :=
          congrArg Prod.fst hsave
        have hs : ({ s with
            assetMap := (buf, FileManager.AssetRecord.classified url
              (FileManager.getAssetDirectory mime url ++ "/" ++
                FileManager.getAssetFilename parse md5hex url mime)) :: s.assetMap
            writes := s.writes ++ [(s.snapshotDir ++ "/" ++
              (FileManager.getAssetDirectory mime url ++ "/" ++
                FileManager.getAssetFilename parse md5hex url mime), buf)]
            assetCount := s.assetCount + 1 } : FileManager.FMState) = s' :=
          congrArg Prod.snd hsave
        refine ⟨?_, ?_, ?_⟩
        · rw [← hs]; simp [List.lookup, ← hr]
        · intro _; rw [← hs]; simp
        · intro r₁ hr₁
          exact Option.noConfusion hr₁
  · intro r hl
    constructor
    · intro url mime
      unfold FileManager.saveAsset
      rw [hl]
    · intro p hsafe
      unfold FileManager.saveAssetAtPath
      simp only [hsafe, Bool.not_true, Bool.false_eq_true, if_false, hl]

/-- C5 witness: after a first safe save of `[9]`, a `saveAsset` call with
the same bytes returns the stored record and leaves the state unchanged. -/
theorem c5_witness :
    FileManager.saveAsset (fun _ => none) (fun _ => "")
        ((FileManager.saveAssetAtPath fmDemo "files/a.png" [9]).2) "u" [9] "text/plain"
      = (FileManager.AssetRecord.atPath "files/a.png",
         (FileManager.saveAssetAtPath fmDemo "files/a.png" [9]).2) := by
  have h := (c5_dedup_by_content (fun _ => none) (fun _ => "")
    ((FileManager.saveAssetAtPath fmDemo "files/a.png" [9]).2) [9]).2.2
      (FileManager.AssetRecord.atPath "files/a.png") (by decide)
  exact h.1 "u" "text/plain"

/-- A string passing the `strStarts · "/"` test is a slash followed by a
tail. -/
theorem strStarts_slash_exists (p : String) (h : strStarts p "/" = true) :
    ∃ rest, p = ⟨'/' :: rest⟩ := by
  obtain ⟨data⟩ := p
  cases data with
  | nil => exact Bool.noConfusion h
  | cons c rest =>
      simp only [strStarts, List.isPrefixOf] at h
      have hc : c = '/' := by
        cases hb : ('/' == c) with
        | false => rw [hb] at h; exact Bool.noConfusion h
        | true => exact (beq_iff_eq.mp hb).symm
      exact ⟨rest, by rw [hc]⟩

/-- The Drupal path rewrite maps a server-relative path to a
server-relative path: a leading slash is preserved (both the pattern and
its replacement start with `/`). -/
theorem rewriteDrupal_head_slash (rest : List Char) :
    ∃ rest', HtmlUtils.rewriteDrupalPaths ⟨'/' :: rest⟩ = ⟨'/' :: rest'⟩ := by
  show ∃ rest', (⟨replaceAllAux "/sites/default/files/".toList "/files/".toList
    (rest.length + 1) ('/' :: rest)⟩ : String) = ⟨'/' :: rest'⟩
  rw [replaceAllAux]
  split
  · exact ⟨_, rfl⟩
  · exact ⟨_, rfl⟩

/-- C4: for every server-relative `src` value, the post-processor's
rewritten HTML reference and the save path computed by `runCrawl` for the
same pathname are both `HtmlUtils.rewriteDrupalPaths` of it — the same
function — and hence equal; in particular, for
`/sites/default/files/img.png` both are `/files/img.png`, and saving at
that path stores the bytes at `<snapshotRoot>/files/img.png` under the
relative path `files/img.png`. -/
theorem c4_path_consistency :
    (∀ (parse : String → Option UrlParts) (siteDomain p : String),
       strStarts p "/" = true →
       PostProcessor.processSrcAttr parse siteDomain p = HtmlUtils.rewriteDrupalPaths p ∧
       Orchestrator.assetSavePath p = HtmlUtils.rewriteDrupalPaths p) ∧
    (∀ (parse : String → Option UrlParts) (siteDomain : String),
       PostProcessor.processSrcAttr parse siteDomain "/sites/default/files/img.png" = "/files/img.png" ∧
       Orchestrator.assetSavePath "/sites/default/files/img.png" = "/files/img.png") ∧
    ((FileManager.saveAssetAtPath fmDemo "/files/img.png" [7]).2.writes =
       [("/out/snap/files/img.png", [7])] ∧
     (FileManager.saveAssetAtPath fmDemo "/files/img.png" [7]).1 =
       some (FileManager.AssetRecord.atPath "files/img.png")) := by
  have main : ∀ (parse : String → Option UrlParts) (siteDomain p : String),
      strStarts p "/" = true →
      PostProcessor.processSrcAttr parse siteDomain p = HtmlUtils.rewriteDrupalPaths p ∧
      Orchestrator.assetSavePath p = HtmlUtils.rewriteDrupalPaths p := by
    intro parse siteDomain p hp
    obtain ⟨rest, hrest⟩ := strStarts_slash_exists p hp
    subst hrest
    refine ⟨?_, rfl⟩
    unfold PostProcessor.processSrcAttr
    rw [show HtmlUtils.isSpecialUrl ⟨'/' :: rest⟩ = false from rfl]
    obtain ⟨rest', hr'⟩ := rewriteDrupal_head_slash rest
    simp only [Bool.false_eq_true, if_false, hr']
    simp [HtmlUtils.toRelativeUrl,
      show HtmlUtils.isAbsoluteUrl ⟨'/' :: rest'⟩ = false from rfl]
  refine ⟨main, ?_, by decide, by decide⟩
  intro parse siteDomain
  have h := main parse siteDomain "/sites/default/files/img.png" (by decide)
  refine ⟨?_, ?_⟩
  · rw [h.1]; decide
  · rw [h.2]; decide

/-- C4 witness: the general statement applied at the concrete asset path
`/sites/default/files/img.png`. -/
theorem c4_witness :
    PostProcessor.processSrcAttr (fun _ => none) "example.com" "/sites/default/files/img.png" =
      HtmlUtils.rewriteDrupalPaths "/sites/default/files/img.png" ∧
    Orchestrator.assetSavePath "/sites/default/files/img.png" =
      HtmlUtils.rewriteDrupalPaths "/sites/default/files/img.png" :=
  c4_path_consistency.1 (fun _ => none) "example.com" "/sites/default/files/img.png" (by decide)

/-- C8: the page save path is determined from the URL's pathname — the
root maps to `index.html`; after stripping one trailing slash, a path
whose final segment has no file extension maps to `<path>/index.html`; a
path with a file extension is used verbatim (relative to the snapshot
root); and a URL the parser rejects falls back to
`pages/<md5-of-url>.html`. -/
theorem c8_page_file_path (parse : String → Option UrlParts) (md5hex : String → String)
    (url : String) :
    (∀ parts p1 p2, parse url = some parts →
       p1 = (if strEnds parts.pathname "/" then strDropLast parts.pathname else parts.pathname) →
       p2 = (if p1 = "" then "/" else p1) →
       ((p2 = "/" → FileManager.getPageFilePath parse md5hex url = "index.html") ∧
        (p2 ≠ "/" → FileManager.extnameOf (strDrop p2 1) ≠ "" →
           FileManager.getPageFilePath parse md5hex url = strDrop p2 1) ∧
        (p2 ≠ "/" → FileManager.extnameOf (strDrop p2 1) = "" →
           FileManager.getPageFilePath parse md5hex url = strDrop p2 1 ++ "/index.html"))) ∧
    (parse url = none →
       FileManager.getPageFilePath parse md5hex url = "pages/" ++ md5hex url ++ ".html") := by
  constructor
  · intro parts p1 p2 hp h1 h2
    subst h1
    subst h2
    refine ⟨?_, ?_, ?_⟩
    · intro h
      simp only [FileManager.getPageFilePath, hp, h, if_pos]
    · intro hne hext
      simp only [FileManager.getPageFilePath, hp]
      rw [if_neg hne, if_pos hext]
    · intro hne hext
      simp only [FileManager.getPageFilePath, hp]
      rw [if_neg hne, if_neg (by simp [hext])]
  · intro hp
    simp only [FileManager.getPageFilePath, hp]

/-- C8 witness: the cases of the path mapping at concrete URLs — root,
extensionless directory path with trailing slash, file path with
extension, the all-dot component `/...` whose Node extension is `"."` and
which is therefore kept verbatim, and an unparseable URL. -/
theorem c8_witness :
    FileManager.getPageFilePath (fun _ => some ⟨"h", "/", "", ""⟩) (fun _ => "d41d8") "u" = "index.html" ∧
    FileManager.getPageFilePath (fun _ => some ⟨"h", "/about/", "", ""⟩) (fun _ => "d41d8") "u" = "about/index.html" ∧
    FileManager.getPageFilePath (fun _ => some ⟨"h", "/docs/f.pdf", "", ""⟩) (fun _ => "d41d8") "u" = "docs/f.pdf" ∧
    FileManager.getPageFilePath (fun _ => some ⟨"h", "/...", "", ""⟩) (fun _ => "d41d8") "u" = "..." ∧
    FileManager.getPageFilePath (fun _ => none) (fun _ => "d41d8") "u" = "pages/d41d8.html" := by
  refine ⟨?_, ?_, ?_, ?_, ?_⟩
  · exact ((c8_page_file_path (fun _ => some ⟨"h", "/", "", ""⟩) (fun _ => "d41d8") "u").1
      ⟨"h", "/", "", ""⟩ _ _ rfl rfl rfl).1 (by decide)
  · have h := ((c8_page_file_path (fun _ => some ⟨"h", "/about/", "", ""⟩) (fun _ => "d41d8") "u").1
      ⟨"h", "/about/", "", ""⟩ _ _ rfl rfl rfl).2.2 (by decide) (by decide)
    rw [h]; decide
  · have h := ((c8_page_file_path (fun _ => some ⟨"h", "/docs/f.pdf", "", ""⟩) (fun _ => "d41d8") "u").1
      ⟨"h", "/docs/f.pdf", "", ""⟩ _ _ rfl rfl rfl).2.1 (by decide) (by decide)
    rw [h]; decide
  · have h := ((c8_page_file_path (fun _ => some ⟨"h", "/...", "", ""⟩) (fun _ => "d41d8") "u").1
      ⟨"h", "/...", "", ""⟩ _ _ rfl rfl rfl).2.1 (by decide) (by decide)
    rw [h]; decide
  · exact (c8_page_file_path (fun _ => none) (fun _ => "d41d8") "u").2 rfl

/-- C3: a 200 response with a non-empty body is classified as an HTML page
(and its body kept) exactly when its media type — the `Content-Type` value
before any `;`, trimmed and lower-cased, empty when the header is absent —
is empty, `text/html` or `application/xhtml+xml`, and its
`Content-Disposition` does not contain the word `attachment`
(case-insensitively); every other such response is classified as a binary
asset, and the crawl loop then adds the URL to the asset set, keeps no
page, records no failure and extracts no links from it. -/
theorem c3_classification :
    (∀ body ct cd, body ≠ "" →
       (Crawler.classifyResponse 200 body ct cd =
           { html := body, status := .code 200, contentType := none, error := none } ↔
         ((Crawler.mediaTypeOf ct = "" ∨ Crawler.mediaTypeOf ct = "text/html" ∨
             Crawler.mediaTypeOf ct = "application/xhtml+xml") ∧
          wordOccurs "attachment" (strToLower (cd.getD "")) = false))) ∧
    (∀ body ct cd, body ≠ "" →
       ¬ ((Crawler.mediaTypeOf ct = "" ∨ Crawler.mediaTypeOf ct = "text/html" ∨
             Crawler.mediaTypeOf ct = "application/xhtml+xml") ∧
          wordOccurs "attachment" (strToLower (cd.getD "")) = false) →
       Crawler.classifyResponse 200 body ct cd =
         { html := "", status := .binaryAsset,
           contentType := some (Crawler.mediaTypeOf ct), error := none }) ∧
    (∀ cfg att extract (s : Crawler.CrawlState) url rest,
       s.queued = url :: rest →
       ¬(cfg.maxDepth > 0 ∧ Crawler.getDepthForUrl s url > cfg.maxDepth) →
       url ∉ s.visited →
       (Crawler.fetchPage cfg att url).1.status = .binaryAsset →
       (Crawler.crawlStep cfg att extract s).assets =
         (if url ∈ s.assets then s.assets else s.assets ++ [url]) ∧
       (Crawler.crawlStep cfg att extract s).pages = s.pages ∧
       (Crawler.crawlStep cfg att extract s).failed = s.failed ∧
       (Crawler.crawlStep cfg att extract s).queued = rest) := by
  have hhtml : ∀ ct, ((Crawler.mediaTypeOf ct == "" || Crawler.mediaTypeOf ct == "text/html" ||
      Crawler.mediaTypeOf ct == "application/xhtml+xml") = true) ↔
      (Crawler.mediaTypeOf ct = "" ∨ Crawler.mediaTypeOf ct = "text/html" ∨
        Crawler.mediaTypeOf ct = "application/xhtml+xml") := by
    intro ct
    simp [Bool.or_eq_true, beq_iff_eq, or_assoc]
  refine ⟨?_, ?_, ?_⟩
  · intro body ct cd hbody
    unfold Crawler.classifyResponse
    rw [if_pos ⟨rfl, hbody⟩]
    simp only []
    split
    next h =>
      constructor
      · intro heq
        exact absurd (congrArg Crawler.FetchRec.status heq) (by simp)
      · intro hrhs
        exfalso
        have h1 := (hhtml ct).mpr hrhs.1
        rw [h1, hrhs.2] at h
        simp at h
    next h =>
      rw [Bool.not_eq_true, Bool.or_eq_false_iff] at h
      obtain ⟨h1, h2⟩ := h
      rw [Bool.not_eq_false'] at h1
      constructor
      · intro _
        exact ⟨(hhtml ct).mp h1, h2⟩
      · intro _
        rfl
  · intro body ct cd hbody hn
    unfold Crawler.classifyResponse
    rw [if_pos ⟨rfl, hbody⟩]
    simp only []
    split
    next => rfl
    next h =>
      exfalso
      rw [Bool.not_eq_true, Bool.or_eq_false_iff] at h
      obtain ⟨h1, h2⟩ := h
      rw [Bool.not_eq_false'] at h1
      exact hn ⟨(hhtml ct).mp h1, h2⟩
  · intro cfg att extract s url rest hq hd hv hst
    unfold Crawler.crawlStep
    rw [hq]
    simp only []
    have hd' : ¬(cfg.maxDepth > 0 ∧
        Crawler.getDepthForUrl { s with queued := rest } url > cfg.maxDepth) := hd
    rw [if_neg hd', if_neg hv, hst]
    rw [if_neg (by simp), if_pos rfl]
    unfold Crawler.addAsset
    simp only []
    by_cases ha : url ∈ s.assets
    · rw [if_pos ha, if_pos ha]
      exact ⟨rfl, rfl, rfl, rfl⟩
    · rw [if_neg ha, if_neg ha]
      exact ⟨rfl, rfl, rfl, rfl⟩

/-- C3 witness: `text/html` with no disposition is kept as a page;
`application/pdf` is a binary asset; `text/html` with
`Content-Disposition: attachment` is a binary asset; and a crawl step on a
binary-asset response adds the URL to the asset set, keeps no page,
records no failure and enqueues nothing. -/
theorem c3_witness :
    Crawler.classifyResponse 200 "<html>" (some "text/html") none =
      { html := "<html>", status := .code 200, contentType := none, error := none } ∧
    Crawler.classifyResponse 200 "x" (some "application/pdf") none =
      { html := "", status := .binaryAsset, contentType := some "application/pdf", error := none } ∧
    Crawler.classifyResponse 200 "<html>" (some "text/html") (some "attachment; filename=a.html") =
      { html := "", status := .binaryAsset, contentType := some "text/html", error := none } ∧
    ((Crawler.crawlStep cfgDemo (fun _ _ => .respond 200 "x" (some "application/pdf") none)
        extractNone { Crawler.initialState with queued := ["https://h/doc.pdf"] }).assets =
      ["https://h/doc.pdf"] ∧
     (Crawler.crawlStep cfgDemo (fun _ _ => .respond 200 "x" (some "application/pdf") none)
        extractNone { Crawler.initialState with queued := ["https://h/doc.pdf"] }).failed = []) := by
  refine ⟨?_, ?_, ?_, ?_⟩
  · exact (c3_classification.1 "<html>" (some "text/html") none (by decide)).mpr (by decide)
  · exact c3_classification.2.1 "x" (some "application/pdf") none (by decide) (by decide)
  · exact c3_classification.2.1 "<html>" (some "text/html") (some "attachment; filename=a.html")
      (by decide) (by decide)
  · have h := c3_classification.2.2 cfgDemo
      (fun _ _ => .respond 200 "x" (some "application/pdf") none) extractNone
      { Crawler.initialState with queued := ["https://h/doc.pdf"] }
      "https://h/doc.pdf" [] rfl (by decide) (by decide) (by decide)
    exact ⟨by rw [h.1]; decide, by rw [h.2.2.1]; rfl⟩

/-- C9 counterexample: an anchor whose `href` is `/JATOS` (upper case)
contains the marker token case-insensitively, so the claim says it is
replaced; the anchor regex `/jatos|experiment/` has no `i` flag and only
the visible text is lower-cased, so the code leaves the anchor in place. -/
theorem c9_counterexample :
    claimTokenFlagged "jatos" (.anchor "/JATOS" "") = true ∧
    PostProcessor.nodeFlagged (.anchor "/JATOS" "") = false ∧
    PostProcessor.replaceJatosForms "https://linkedin.com" [.anchor "/JATOS" ""] =
      [.anchor "/JATOS" ""] := by
  exact ⟨by decide, by decide, by decide⟩

/-- A pattern occurs in any string that embeds it between two contexts. -/
theorem occursIn_sandwich (p a b : List Char) : occursIn p (a ++ (p ++ b)) = true := by
  induction a with
  | nil =>
      rw [List.nil_append]
      cases hp : p ++ b with
      | nil =>
          rw [List.append_eq_nil] at hp
          simp [occursIn, hp.1]
      | cons c rest =>
          rw [occursIn, ← hp]
          have : p.isPrefixOf (p ++ b) = true := by
            rw [List.isPrefixOf_iff_prefix]
            exact List.prefix_append p b
          rw [this, Bool.true_or]
  | cons c a' ih =>
      rw [List.cons_append, occursIn, ih, Bool.or_true]

/-- C9 (amended): `replaceJatosForms` replaces exactly the elements flagged
by the per-kind decision functions — substituting the informational block
which always embeds the configured contact link — and the matching is
case-sensitive for iframe attributes (CSS `*=` selectors), case-insensitive
over `action + class` for forms with the three tokens `jatos`,
`experiment`, `signup`, and case-sensitive on `href` but insensitive on
the lower-cased visible text for anchors with the two tokens `jatos`,
`experiment`. -/
theorem c9_flag_semantics :
    (∀ profile page, PostProcessor.replaceJatosForms profile page =
       page.map (fun n => if PostProcessor.nodeFlagged n then
         PostProcessor.HNode.replacement (HtmlUtils.createJatosReplacement profile) else n)) ∧
    (∀ profile, strOccurs profile (HtmlUtils.createJatosReplacement profile) = true) ∧
    (PostProcessor.iframeFlagged "x/JATOS" "" = false ∧
     PostProcessor.iframeFlagged "x/jatos" "" = true) ∧
    (PostProcessor.formFlagged "x/JATOS" "" = true ∧
     PostProcessor.formFlagged "" "SignUp-form" = true) ∧
    (PostProcessor.anchorFlagged "/JATOS" "" = false ∧
     PostProcessor.anchorFlagged "z" "Run the JATOS Experiment" = true) := by
  refine ⟨?_, ?_, by decide, by decide, by decide⟩
  · intro profile page
    unfold PostProcessor.replaceJatosForms
    simp only [List.map_map]
    apply List.map_congr_left
    intro n _
    cases n with
    | iframe src cls =>
        by_cases h : PostProcessor.iframeFlagged src cls = true
        · simp [Function.comp, h, PostProcessor.nodeFlagged]
        · rw [Bool.not_eq_true] at h
          simp [Function.comp, h, PostProcessor.nodeFlagged]
    | form action cls =>
        by_cases h : PostProcessor.formFlagged action cls = true
        · simp [Function.comp, h, PostProcessor.nodeFlagged]
        · rw [Bool.not_eq_true] at h
          simp [Function.comp, h, PostProcessor.nodeFlagged]
    | anchor href text =>
        by_cases h : PostProcessor.anchorFlagged href text = true
        · simp [Function.comp, h, PostProcessor.nodeFlagged]
        · rw [Bool.not_eq_true] at h
          simp [Function.comp, h, PostProcessor.nodeFlagged]
    | other tag => simp [Function.comp, PostProcessor.nodeFlagged]
    | replacement html => simp [Function.comp, PostProcessor.nodeFlagged]
  · intro profile
    unfold HtmlUtils.createJatosReplacement strOccurs
    rw [show ∀ a b : String, (a ++ b).toList = a.toList ++ b.toList from fun a b => rfl]
    rw [show ∀ a b : String, (a ++ b).toList = a.toList ++ b.toList from fun a b => rfl]
    rw [List.append_assoc]
    exact occursIn_sandwich profile.toList _ _

/-- C2 counterexample: with `maxRetries = 3` and an oracle that always
answers HTTP 500, `fetchPage` issues exactly one GET and returns the 500
failure record immediately — a non-success HTTP status is not retried,
contradicting the claimed `1 + maxRetries` GETs. -/
theorem c2_counterexample :
    (Crawler.fetchPage cfgDemo attStatus500 "https://h/").2.1 = 1 ∧
    cfgDemo.maxRetries = 3 ∧
    (Crawler.fetchPage cfgDemo attStatus500 "https://h/").2.1 ≠ 1 + cfgDemo.maxRetries ∧
    (Crawler.fetchPage cfgDemo attStatus500 "https://h/").1 =
      { html := "", status := .code 500, contentType := none, error := some "HTTP 500" } := by
  exact ⟨by decide, by decide, by decide, by decide⟩

/-- `fetchFrom` issues at most `budget + 1` GETs. -/
theorem fetchFrom_count_le (att : String → Nat → Crawler.AttemptResult) (url : String) :
    ∀ budget attempt, (Crawler.fetchFrom att url budget attempt).2.1 ≤ budget + 1 := by
  intro budget
  induction budget with
  | zero =>
      intro attempt
      unfold Crawler.fetchFrom
      cases att url attempt <;> simp
  | succ b ih =>
      intro attempt
      unfold Crawler.fetchFrom
      cases att url attempt with
      | respond st body ct cd => simp
      | throwErr msg =>
          simp only []
          have := ih (attempt + 1)
          omega

/-- Under a persistent transport failure, `fetchFrom` performs every retry:
`budget + 1` GETs, backoff delays `1000 * (attempt+1)` for each retry, and
a final status-0 failure carrying the thrown message. -/
theorem fetchFrom_all_throw (att : String → Nat → Crawler.AttemptResult) (url msg : String)
    (h : ∀ k, att url k = .throwErr msg) :
    ∀ budget attempt, Crawler.fetchFrom att url budget attempt =
      ({ html := "", status := .code 0, contentType := none, error := some msg },
       budget + 1,
       (List.range budget).map (fun i => 1000 * (attempt + i + 1))) := by
  intro budget
  induction budget with
  | zero =>
      intro attempt
      unfold Crawler.fetchFrom
      rw [h attempt]
      rfl
  | succ b ih =>
      intro attempt
      unfold Crawler.fetchFrom
      rw [h attempt]
      simp only [ih (attempt + 1)]
      refine congrArg _ (congrArg _ ?_)
      rw [List.range_succ_eq_map, List.map_cons, List.map_map]
      refine congrArg₂ _ (by omega) ?_
      apply List.map_congr_left
      intro i _
      simp [Function.comp]
      omega

/-- C2 (amended): only a transport failure (an exception from the HTTP
client) is retried — up to `maxRetries` times, sleeping `1000 * (attempt+1)`
milliseconds before each retry, so at most `1 + maxRetries` GETs are ever
issued and a persistent transport failure performs them all before
returning a status-0 failure record; a non-success HTTP status is returned
immediately as a failure record (`HTTP <status>`) after a single GET,
without any retry; `fetchPage` is total, and the crawl loop appends the
failure to the failed list and proceeds with the remaining frontier. -/
theorem c2_retry_policy :
    (∀ cfg att url, (Crawler.fetchPage cfg att url).2.1 ≤ 1 + cfg.maxRetries) ∧
    (∀ (cfg : CrawlerConfig) att url msg, (∀ k, att url k = .throwErr msg) →
       Crawler.fetchPage cfg att url =
         ({ html := "", status := .code 0, contentType := none, error := some msg },
          1 + cfg.maxRetries,
          (List.range cfg.maxRetries).map (fun i => 1000 * (i + 1)))) ∧
    (∀ cfg att url st body ct cd, att url 0 = .respond st body ct cd → st ≠ 200 →
       Crawler.fetchPage cfg att url = (Crawler.classifyResponse st body ct cd, 1, []) ∧
       (Crawler.classifyResponse st body ct cd).status = .code st ∧
       (Crawler.classifyResponse st body ct cd).error = some ("HTTP " ++ toString st)) ∧
    (∀ cfg att extract (s : Crawler.CrawlState) url rest st err,
       s.queued = url :: rest →
       ¬(cfg.maxDepth > 0 ∧ Crawler.getDepthForUrl s url > cfg.maxDepth) →
       url ∉ s.visited →
       (Crawler.fetchPage cfg att url).1.status = .code st → st ≠ 200 →
       (Crawler.fetchPage cfg att url).1.error = some err →
       (Crawler.crawlStep cfg att extract s).failed = s.failed ++ [(url, .code st, err)] ∧
       (Crawler.crawlStep cfg att extract s).queued = rest) := by
  refine ⟨?_, ?_, ?_, ?_⟩
  · intro cfg att url
    have := fetchFrom_count_le att url cfg.maxRetries 0
    unfold Crawler.fetchPage
    omega
  · intro cfg att url msg h
    unfold Crawler.fetchPage
    rw [fetchFrom_all_throw att url msg h cfg.maxRetries 0]
    refine congrArg _ (congrArg₂ _ (by omega) ?_)
    apply List.map_congr_left
    intro i _
    omega
  · intro cfg att url st body ct cd h0 hne
    refine ⟨?_, ?_, ?_⟩
    · unfold Crawler.fetchPage
      cases hm : cfg.maxRetries with
      | zero => unfold Crawler.fetchFrom; rw [h0]
      | succ b => unfold Crawler.fetchFrom; rw [h0]
    · unfold Crawler.classifyResponse
      rw [if_neg (fun hc => hne hc.1)]
    · unfold Crawler.classifyResponse
      rw [if_neg (fun hc => hne hc.1)]
  · intro cfg att extract s url rest st err hq hd hv hst hne herr
    unfold Crawler.crawlStep
    rw [hq]
    simp only []
    have hd' : ¬(cfg.maxDepth > 0 ∧
        Crawler.getDepthForUrl { s with queued := rest } url > cfg.maxDepth) := hd
    rw [if_neg hd', if_neg hv, hst, herr]
    rw [if_neg (by simp [hne]), if_neg (by simp)]
    exact ⟨rfl, rfl⟩

/-- C2 witness: the amended policy applied at concrete oracles — a
persistent transport failure with `maxRetries = 3` issues four GETs with
backoff delays 1000, 2000, 3000 ms and yields a status-0 failure; a first
attempt answering HTTP 500 yields the `HTTP 500` failure after one GET;
and a crawl step over a failing URL appends it to the failed list and
moves on. -/
theorem c2_witness :
    Crawler.fetchPage cfgDemo attThrowAlways "https://h/" =
      ({ html := "", status := .code 0, contentType := none, error := some "ECONNRESET" },
       4, [1000, 2000, 3000]) ∧
    Crawler.fetchPage cfgDemo attStatus500 "https://h/x" =
      (Crawler.classifyResponse 500 "err" none none, 1, []) ∧
    ((Crawler.crawlStep cfgDemo attStatus500 extractNone
        { Crawler.initialState with queued := ["https://h/x"] }).failed =
      [("https://h/x", .code 500, "HTTP 500")] ∧
     (Crawler.crawlStep cfgDemo attStatus500 extractNone
        { Crawler.initialState with queued := ["https://h/x"] }).queued = []) := by
  refine ⟨?_, ?_, ?_⟩
  · have h := c2_retry_policy.2.1 cfgDemo attThrowAlways "https://h/" "ECONNRESET"
      (fun k => rfl)
    rw [h]
    decide
  · exact (c2_retry_policy.2.2.1 cfgDemo attStatus500 "https://h/x" 500 "err" none none
      rfl (by decide)).1
  · have h := c2_retry_policy.2.2.2 cfgDemo attStatus500 extractNone
      { Crawler.initialState with queued := ["https://h/x"] }
      "https://h/x" [] 500 "HTTP 500" rfl (by decide) (by decide) (by decide) (by decide) (by decide)
    exact ⟨by rw [h.1]; rfl, h.2⟩

/-- `queueUrl` touches only the queue and the depth map. -/
theorem queueUrl_visited_log (s : Crawler.CrawlState) (url : String) (d : Nat) :
    (Crawler.queueUrl s url d).visited = s.visited ∧
    (Crawler.queueUrl s url d).fetchLog = s.fetchLog := by
  unfold Crawler.queueUrl
  split <;> exact ⟨rfl, rfl⟩

/-- `addAsset` touches only the asset set. -/
theorem addAsset_visited_log (s : Crawler.CrawlState) (url : String) :
    (Crawler.addAsset s url).visited = s.visited ∧
    (Crawler.addAsset s url).fetchLog = s.fetchLog := by
  unfold Crawler.addAsset
  split <;> exact ⟨rfl, rfl⟩

/-- A fold whose step preserves a projection preserves it globally. -/
theorem foldl_pres {α β : Type} (g : Crawler.CrawlState → β)
    (f : Crawler.CrawlState → α → Crawler.CrawlState)
    (hf : ∀ t a, g (f t a) = g t) :
    ∀ (l : List α) (s : Crawler.CrawlState), g (List.foldl f s l) = g s := by
  intro l
  induction l with
  | nil => intro s; rfl
  | cons a l ih => intro s; rw [List.foldl_cons, ih, hf]

/-- The invariant only depends on the visited list and the fetch log. -/
theorem crawlInv_of_eq (m : Nat) (s s' : Crawler.CrawlState)
    (hvis : s'.visited = s.visited) (hlog : s'.fetchLog = s.fetchLog)
    (h : CrawlInv m s) : CrawlInv m s' := by
  refine ⟨hvis ▸ h.1, ?_⟩
  intro u
  rw [hvis, hlog]
  exact h.2 u

/-- Marking a fresh URL visited while logging its `n ≤ m` GETs preserves
the invariant. -/
theorem crawlInv_extend (m n : Nat) (url : String) (s s' : Crawler.CrawlState)
    (hvis : s'.visited = url :: s.visited)
    (hlog : s'.fetchLog = List.replicate n url ++ s.fetchLog)
    (h : CrawlInv m s) (hv : url ∉ s.visited) (hn : n ≤ m) : CrawlInv m s' := by
  constructor
  · rw [hvis]
    exact List.nodup_cons.mpr ⟨hv, h.1⟩
  · intro u
    rw [hvis, hlog, List.count_append, List.count_replicate]
    by_cases he : u = url
    · subst he
      have h0 : s.fetchLog.count u = 0 :=
        Nat.le_zero.mp (by have h1 := h.2 u; rwa [if_neg hv] at h1)
      simpa [h0] using hn
    · have hbe : (url == u) = false := beq_eq_false_iff_ne.mpr (fun hc => he hc.symm)
      rw [hbe]
      simp only [Bool.false_eq_true, if_false, Nat.zero_add]
      have h0 := h.2 u
      by_cases hm : u ∈ s.visited
      · rw [if_pos hm] at h0
        rw [if_pos (List.mem_cons_of_mem url hm)]
        omega
      · rw [if_neg hm] at h0
        rw [if_neg (by rw [List.mem_cons]; rintro (hc | hc); exact he hc; exact hm hc)]
        omega

/-- One crawl-loop iteration preserves the fetch-count invariant. -/
theorem crawlStep_inv (cfg : CrawlerConfig) (att : String → Nat → Crawler.AttemptResult)
    (extract : String → String → List String × List String)
    (s : Crawler.CrawlState) (h : CrawlInv (1 + cfg.maxRetries) s) :
    CrawlInv (1 + cfg.maxRetries) (Crawler.crawlStep cfg att extract s) := by
  unfold Crawler.crawlStep
  cases hq : s.queued with
  | nil => exact h
  | cons url rest =>
      simp only []
      by_cases hd : cfg.maxDepth > 0 ∧
          Crawler.getDepthForUrl { s with queued := rest } url > cfg.maxDepth
      · rw [if_pos hd]
        exact crawlInv_of_eq _ s _ rfl rfl h
      · rw [if_neg hd]
        by_cases hv : url ∈ s.visited
        · rw [if_pos hv]
          exact crawlInv_of_eq _ s _ rfl rfl h
        · rw [if_neg hv]
          have hn : (Crawler.fetchPage cfg att url).2.1 ≤ 1 + cfg.maxRetries := by
            have := fetchFrom_count_le att url cfg.maxRetries 0
            unfold Crawler.fetchPage
            omega
          have hinv2 : CrawlInv (1 + cfg.maxRetries)
              { s with
                queued := rest
                visited := url :: s.visited
                processed := s.processed + 1
                fetchLog := List.replicate (Crawler.fetchPage cfg att url).2.1 url ++ s.fetchLog } :=
            crawlInv_extend _ _ url s _ rfl rfl h hv hn
          split
          · refine crawlInv_of_eq _ _ _ ?_ ?_ hinv2
            · rw [foldl_pres (fun t => t.visited) _
                (fun t a => (addAsset_visited_log t a).1)]
              rw [foldl_pres (fun t => t.visited) _ ?_]
              · intro t a
                simp only []
                split
                · exact (queueUrl_visited_log t a _).1
                · rfl
            · rw [foldl_pres (fun t => t.fetchLog) _
                (fun t a => (addAsset_visited_log t a).2)]
              rw [foldl_pres (fun t => t.fetchLog) _ ?_]
              · intro t a
                simp only []
                split
                · exact (queueUrl_visited_log t a _).2
                · rfl
          · split
            · exact crawlInv_of_eq _ _ _
                (addAsset_visited_log _ url).1 (addAsset_visited_log _ url).2 hinv2
            · exact crawlInv_of_eq _ _ _ rfl rfl hinv2

/-- The crawl loop preserves the fetch-count invariant for any fuel. -/
theorem crawlLoop_inv (cfg : CrawlerConfig) (att : String → Nat → Crawler.AttemptResult)
    (extract : String → String → List String × List String) :
    ∀ (fuel : Nat) (s : Crawler.CrawlState), CrawlInv (1 + cfg.maxRetries) s →
      CrawlInv (1 + cfg.maxRetries) (Crawler.crawlLoop cfg att extract fuel s) := by
  intro fuel
  induction fuel with
  | zero => intro s h; exact h
  | succ n ih =>
      intro s h
      unfold Crawler.crawlLoop
      split
      · exact ih _ (crawlStep_inv cfg att extract s h)
      · exact h

/-- Once the frontier is empty the loop is stationary. -/
theorem crawlLoop_stationary (cfg : CrawlerConfig) (att : String → Nat → Crawler.AttemptResult)
    (extract : String → String → List String × List String)
    (s : Crawler.CrawlState) (h : s.queued = []) :
    ∀ n, Crawler.crawlLoop cfg att extract n s = s := by
  intro n
  cases n with
  | zero => rfl
  | succ n =>
      unfold Crawler.crawlLoop
      rw [if_neg]
      intro hc
      exact hc.1 h

/-- C7: over any crawl run, the visited list never holds a duplicate and
every URL is fetched at most `1 + maxRetries` times; on the concrete
two-page cyclic site (the root links to `/b` and `/b` links back) the
crawl terminates with an empty frontier after visiting both pages, and the
loop is stationary from then on for any additional fuel. -/
theorem c7_visit_once_and_termination :
    (∀ (cfg : CrawlerConfig) att extract fuel,
       (Crawler.crawl cfg att extract fuel).visited.Nodup ∧
       ∀ u, (Crawler.crawl cfg att extract fuel).fetchLog.count u ≤ 1 + cfg.maxRetries) ∧
    ((Crawler.crawl cfgDemo attCycle extractCycle 10).queued = [] ∧
     (Crawler.crawl cfgDemo attCycle extractCycle 10).visited = ["https://h/b", "https://h/"] ∧
     ∀ n, Crawler.crawlLoop cfgDemo attCycle extractCycle n
       (Crawler.crawl cfgDemo attCycle extractCycle 10) =
         Crawler.crawl cfgDemo attCycle extractCycle 10) := by
  constructor
  · intro cfg att extract fuel
    have hinit : CrawlInv (1 + cfg.maxRetries)
        (Crawler.queueUrl Crawler.initialState ("https://" ++ cfg.siteHost ++ "/") 0) := by
      constructor
      · rw [(queueUrl_visited_log _ _ _).1]
        exact List.nodup_nil
      · intro u
        rw [(queueUrl_visited_log _ _ _).1, (queueUrl_visited_log _ _ _).2]
        simp [Crawler.initialState]
    have h := crawlLoop_inv cfg att extract fuel _ hinit
    refine ⟨h.1, ?_⟩
    intro u
    have h2 := h.2 u
    by_cases hm : u ∈ (Crawler.crawl cfg att extract fuel).visited
    · unfold Crawler.crawl at hm ⊢
      rw [if_pos hm] at h2
      exact h2
    · unfold Crawler.crawl at hm ⊢
      rw [if_neg hm] at h2
      omega
  · refine ⟨by decide, by decide, ?_⟩
    exact crawlLoop_stationary cfgDemo attCycle extractCycle _ (by decide)
